import Mathlib

/-!
Verification of the PQ-Matrix-Installer orchestration core.

This file shallowly embeds the parts of the repository that the checked
claims are about:

* `SystemChecker.determine_optimization_level` (src/utils/system_checks.py)
* `PhaseManager._adjust_phases_for_optimization`, `run_all_phases`
  (src/phases/phase_manager.py)
* `ConfigManager._load_from_env`, `_validate_config`, `_save_config`,
  `get`, `set` (src/config/config_manager.py)
* the exit-code behaviour of `main` (main.py)

Python dictionaries are embedded as association lists over `String`,
Python scalar values as the inductive `Value`, raising code as
`Option`/`Except`, and the process environment as `String → Option String`.
-/

namespace PQMatrix

/-- The three optimization levels `low`, `standard`, `high`. -/
inductive Level where
  | low
  | standard
  | high
deriving DecidableEq, Repr

/-- Numeric rank of a level: `low < standard < high`. -/
def levelRank : Level → Nat
  | .low => 0
  | .standard => 1
  | .high => 2

/-- The string the Python code uses for each level. -/
def levelStr : Level → String
  | .low => "low"
  | .standard => "standard"
  | .high => "high"

/-- A resource profile as measured by `SystemChecker`:
`cpu_cores` (an integer in Python), `memory_gb` and `disk_free_gb`
(floats in Python, embedded as rationals). -/
structure Profile where
  cpu_cores : Nat
  memory_gb : ℚ
  disk_free_gb : ℚ
deriving DecidableEq, Repr

/-- Minimum RAM (GB) per level, from
`SystemChecker.optimization_requirements` (system_checks.py lines 41-57). -/
def ramGbMin : Level → ℚ
  | .low => 2
  | .standard => 4
  | .high => 8

/-- Minimum CPU cores per level, from
`SystemChecker.optimization_requirements`. -/
def cpuCoresMin : Level → Nat
  | .low => 2
  | .standard => 4
  | .high => 8

/-- Minimum free disk (GB) per level, from
`SystemChecker.optimization_requirements`. -/
def diskGbMin : Level → ℚ
  | .low => 20
  | .standard => 30
  | .high => 50

/-- Embedding of `SystemChecker.determine_optimization_level`
(system_checks.py lines 86-103).  The Python code compares only
`ram_gb` and `cpu_cores` against the `high` and `standard` rows of the
requirements table; the `disk_space_gb` column of the table is never
consulted, and the `low` row is the unconditional fallback. -/
def determine_optimization_level (p : Profile) : Level :=
  if ramGbMin .high ≤ p.memory_gb ∧ cpuCoresMin .high ≤ p.cpu_cores then
    .high
  else if ramGbMin .standard ≤ p.memory_gb ∧ cpuCoresMin .standard ≤ p.cpu_cores then
    .standard
  else
    .low

/-- The qualification predicate used by the spec for a level: the profile meets
all three thresholds (min CPU cores, min RAM GB, min free disk GB) of
the row of that level in the ordered table. -/
def meetsAllThree (p : Profile) (l : Level) : Prop :=
  cpuCoresMin l ≤ p.cpu_cores ∧ ramGbMin l ≤ p.memory_gb ∧ diskGbMin l ≤ p.disk_free_gb

instance (p : Profile) (l : Level) : Decidable (meetsAllThree p l) := by
  unfold meetsAllThree; infer_instance

/-- The profile meets the CPU and RAM thresholds of the row of a level (the
two columns the code actually consults). -/
def meetsCpuRam (p : Profile) (l : Level) : Prop :=
  cpuCoresMin l ≤ p.cpu_cores ∧ ramGbMin l ≤ p.memory_gb

instance (p : Profile) (l : Level) : Decidable (meetsCpuRam p l) := by
  unfold meetsCpuRam; infer_instance

/-- The optimization level as the spec describes it: the highest level
whose three thresholds are all met, defaulting to `low` when none are.
This definition follows the words of the spec and exists only to be compared
with `determine_optimization_level`, which is embedded from the source. -/
def specOptimizationLevel (p : Profile) : Level :=
  if meetsAllThree p .high then .high
  else if meetsAllThree p .standard then .standard
  else .low

/-- Outcome of the `execute()` call of a phase: it returns `True`, returns a
falsy value, or raises an exception (phase_manager.py lines 166-182
distinguish exactly these three). -/
inductive ExecOutcome where
  | retTrue
  | retFalse
  | raises
deriving DecidableEq, Repr

/-- An installation phase as `run_all_phases` observes it: its `name`
and `required` attributes and the outcomes of its `check_prerequisites`
and `execute` methods for this run. -/
structure Phase where
  name : String
  required : Bool
  prereq : Bool
  exec : ExecOutcome
deriving DecidableEq, Repr

/-- A lifecycle call made by `run_all_phases`, tagged with the position
of the receiving phase in `self.phases`. -/
inductive Event where
  | prereqCheck (i : Nat)
  | execCall (i : Nat)
  | rollbackCall (i : Nat)
  | cleanupCall (i : Nat)
deriving DecidableEq, Repr

/-- The position of the phase an event concerns. -/
def Event.idx : Event → Nat
  | .prereqCheck i => i
  | .execCall i => i
  | .rollbackCall i => i
  | .cleanupCall i => i

/-- Embedding of the loop body of `PhaseManager.run_all_phases`
(phase_manager.py lines 147-190), with the head phase at position `i`.
Returns the overall boolean result together with the ordered list of
lifecycle calls made.  Mirrors the source exactly: a phase named in
`skip_phases` is passed over before any lifecycle call; an unmet
prerequisite on a required phase returns `False` with no rollback or
cleanup; `execute` returning falsy triggers `rollback` only when the
phase is required; a raised exception triggers `rollback` whether or
not the phase is required; `cleanup` runs in a `finally` whenever
`execute` was entered. -/
def runAllAux : List Phase → Nat → List String → Bool × List Event
  | [], _, _ => (true, [])
  | p :: rest, i, skip =>
    if p.name ∈ skip then
      runAllAux rest (i + 1) skip
    else if p.prereq = false then
      if p.required then
        (false, [.prereqCheck i])
      else
        ((runAllAux rest (i + 1) skip).1,
          .prereqCheck i :: (runAllAux rest (i + 1) skip).2)
    else
      match p.exec with
      | .retTrue =>
        ((runAllAux rest (i + 1) skip).1,
          .prereqCheck i :: .execCall i :: .cleanupCall i ::
            (runAllAux rest (i + 1) skip).2)
      | .retFalse =>
        if p.required then
          (false, [.prereqCheck i, .execCall i, .rollbackCall i, .cleanupCall i])
        else
          ((runAllAux rest (i + 1) skip).1,
            .prereqCheck i :: .execCall i :: .cleanupCall i ::
              (runAllAux rest (i + 1) skip).2)
      | .raises =>
        if p.required then
          (false, [.prereqCheck i, .execCall i, .rollbackCall i, .cleanupCall i])
        else
          ((runAllAux rest (i + 1) skip).1,
            .prereqCheck i :: .execCall i :: .rollbackCall i :: .cleanupCall i ::
              (runAllAux rest (i + 1) skip).2)

/-- Embedding of `PhaseManager.run_all_phases` over the registered phase
list: the returned boolean and the trace of lifecycle calls. -/
def runAllPhases (ps : List Phase) (skip : List String) : Bool × List Event :=
  runAllAux ps 0 skip

/-- A phase outcome after which `run_all_phases` calls `rollback`: the
phase raised, or it returned falsy and is required. -/
def rollbackTriggered (p : Phase) : Prop :=
  p.exec = .raises ∨ (p.exec = .retFalse ∧ p.required = true)

instance (p : Phase) : Decidable (rollbackTriggered p) := by
  unfold rollbackTriggered; infer_instance

/-- Exit-code behaviour of `main` (main.py lines 90-117): `130` on a
user interrupt, `1` when the system-requirement checks fail or when
`ConfigManager` raises, and otherwise `0` — the boolean returned by
`run_all_phases` (the last argument) is never consulted, because main.py
line 108 discards it. -/
def mainExitCode (interrupted sysChecksOK configRaises _phasesOK : Bool) : Nat :=
  if interrupted then 130
  else if sysChecksOK = false then 1
  else if configRaises then 1
  else 0

/-- A Python configuration value: a string, a boolean, a number, or a
nested mapping (embedded as an association list in insertion order,
matching Python dict semantics). -/
inductive Value where
  | vStr : String → Value
  | vBool : Bool → Value
  | vInt : Int → Value
  | vMap : List (String × Value) → Value

/-- The configuration mapping held in `ConfigManager.config`. -/
abbrev Config := List (String × Value)

/-- The process environment: `os.environ.get`. -/
abbrev Env := String → Option String

/-- Python dict lookup `m.get(key)` on the embedded association list. -/
def lookupA : Config → String → Option Value
  | [], _ => none
  | (k, v) :: rest, key => if k = key then some v else lookupA rest key

/-- Python dict assignment `m[key] = v`: replaces the value in place if
the key is present, otherwise appends (insertion order). -/
def insertA : Config → String → Value → Config
  | [], key, v => [(key, v)]
  | (k, w) :: rest, key, v =>
    if k = key then (k, v) :: rest else (k, w) :: insertA rest key v

/-- Helper of the Python `split` embedding: accumulates the current
segment (reversed) while scanning the character list. -/
def splitOnCharAux (c : Char) : List Char → List Char → List String
  | [], acc => [String.mk acc.reverse]
  | d :: rest, acc =>
    if d = c then String.mk acc.reverse :: splitOnCharAux c rest []
    else splitOnCharAux c rest (d :: acc)

/-- Python `s.split(c)` for a one-character separator. -/
def splitOnChar (c : Char) (s : String) : List String :=
  splitOnCharAux c s.data []

/-- Whether one character list is a prefix of another. -/
def listIsPrefix : List Char → List Char → Bool
  | [], _ => true
  | _ :: _, [] => false
  | a :: as, b :: bs => a == b && listIsPrefix as bs

/-- Whether `p` occurs as a contiguous run inside the second list:
the Python expression `p in s` on strings. -/
def isSubstrList (p : List Char) : List Char → Bool
  | [] => p.isEmpty
  | c :: rest => listIsPrefix p (c :: rest) || isSubstrList p rest

/-- The traversal loop of `ConfigManager.get` (config_manager.py lines
293-301), embedded with the Python raising semantics: descending below a
number or boolean raises (`in` on a non-container), descending below a
string applies substring membership and then raises on the string
indexing `value[part]` when the segment is a substring, and a missing
key in a mapping returns the default. -/
def getGo (dflt : Value) : Value → List String → Except Unit Value
  | v, [] => Except.ok v
  | Value.vMap m, part :: rest =>
    match lookupA m part with
    | none => Except.ok dflt
    | some v => getGo dflt v rest
  | Value.vStr s, part :: _ =>
    if isSubstrList part.data s.data then Except.error () else Except.ok dflt
  | Value.vInt _, _ :: _ => Except.error ()
  | Value.vBool _, _ :: _ => Except.error ()

/-- Embedding of `ConfigManager.get(key, default)` (config_manager.py
lines 282-303): dotted keys traverse nested mappings, plain keys use
`dict.get`. -/
def getConfig (cfg : Config) (key : String) (dflt : Value) : Except Unit Value :=
  if key.data.contains (Char.ofNat 46) then getGo dflt (Value.vMap cfg) (splitOnChar (Char.ofNat 46) key)
  else Except.ok ((lookupA cfg key).getD dflt)

/-- The walk of `ConfigManager.set` over the path segments
(config_manager.py lines 313-321): intermediate mappings are created
when a segment is absent, an existing non-mapping intermediate raises
(`none`), and the last segment is assigned into the final mapping. -/
def setGo (v : Value) : Config → List String → Option Config
  | m, [] => some m
  | m, [last] => some (insertA m last v)
  | m, part :: next :: rest =>
    match lookupA m part with
    | none =>
      match setGo v [] (next :: rest) with
      | some m2 => some (insertA m part (Value.vMap m2))
      | none => none
    | some (Value.vMap m1) =>
      match setGo v m1 (next :: rest) with
      | some m2 => some (insertA m part (Value.vMap m2))
      | none => none
    | some _ => none

/-- Embedding of the mutation part of `ConfigManager.set(key, value)`
(config_manager.py lines 305-323), before the persistence it triggers. -/
def configSet (cfg : Config) (key : String) (v : Value) : Option Config :=
  if key.data.contains (Char.ofNat 46) then setGo v cfg (splitOnChar (Char.ofNat 46) key)
  else some (insertA cfg key v)

/-- Truthiness of `os.environ.get(name)`: present and non-empty. -/
def envTruthy (env : Env) (name : String) : Bool :=
  match env name with
  | some s => s != ""
  | none => false

/-- The value read when `os.environ.get(name)` was truthy. -/
def envGet (env : Env) (name : String) : String := (env name).getD ""

/-- The nested-override pattern of `_load_from_env`: ensure `cfg[k]`
exists (creating an empty dict when absent) and assign
`cfg[k][sub] = v`; raises (`none`) when `cfg[k]` exists but is not a
mapping. -/
def setSub (cfg : Config) (k sub : String) (v : Value) : Option Config :=
  match lookupA cfg k with
  | none => some (insertA cfg k (Value.vMap (insertA [] sub v)))
  | some (Value.vMap m) => some (insertA cfg k (Value.vMap (insertA m sub v)))
  | some _ => none

/-- One top-level override block of `_load_from_env`:
`if os.environ.get(name): self.config[key] = os.environ.get(name)`. -/
def envStepTop (env : Env) (name key : String) (cfg : Config) : Config :=
  if envTruthy env name then insertA cfg key (Value.vStr (envGet env name)) else cfg

/-- One nested override block of `_load_from_env`: ensure the section
dict exists, then assign the subkey; raises when the section exists but
is not a dict. -/
def envStepSub (env : Env) (name k sub : String) (cfg : Config) : Option Config :=
  if envTruthy env name then setSub cfg k sub (Value.vStr (envGet env name)) else some cfg

/-- Embedding of `ConfigManager._load_from_env` (config_manager.py
lines 82-119): each recognized environment variable, when present and
non-empty, overwrites its configuration key; nested sections are
created on demand. -/
def load_from_env (env : Env) (cfg : Config) : Option Config := do
  let c3 ← envStepSub env "CLOUDFLARE_API_TOKEN" "cloudflare" "api_token"
    (envStepTop env "MATRIX_DOMAIN" "matrix_domain"
      (envStepTop env "MATRIX_SERVER_NAME" "matrix_server_name" cfg))
  let c4 ← envStepSub env "CLOUDFLARE_EMAIL" "cloudflare" "email" c3
  let c5 ← envStepSub env "RCLONE_REMOTE" "rclone" "remote" c4
  let c6 ← envStepSub env "RCLONE_PATH" "rclone" "path" c5
  envStepSub env "TURN_SECRET" "turn" "secret" c6

/-- Schema check `And(str, len)`: a non-empty string. -/
def nonEmptyStr : Value → Bool
  | Value.vStr s => s != ""
  | _ => false

/-- A nested section schema `{Optional(k): And(str, len), ...}` of the
`schema` library: the value must be a mapping, every key present must
be one of the allowed keys, and its value a non-empty string; keys not
listed in `allowed` are rejected (the library default, no
`ignore_extra_keys`). -/
def subMapOk (allowed : List String) : Value → Bool
  | Value.vMap m => m.all fun p => allowed.contains p.1 && nonEmptyStr p.2
  | _ => false

/-- Validity of one top-level entry under the schema of
`ConfigManager._validate_config` (config_manager.py lines 129-145). -/
def topEntryOk : String × Value → Bool
  | (k, v) =>
    if k = "matrix_server_name" then nonEmptyStr v
    else if k = "matrix_domain" then nonEmptyStr v
    else if k = "admin_email" then nonEmptyStr v
    else if k = "cloudflare" then subMapOk ["api_token", "email"] v
    else if k = "rclone" then subMapOk ["remote", "path"] v
    else if k = "turn" then subMapOk ["secret"] v
    else if k = "optimization_level" then
      match v with
      | Value.vStr s => ["low", "standard", "high"].contains s
      | _ => false
    else false

/-- Embedding of `ConfigManager._validate_config` (config_manager.py
lines 121-152): the `schema` library accepts the mapping exactly when
every top-level entry carries a recognized key with a valid value —
with only `Optional` keys, nothing is required, and by the library
default an unrecognized key is a `SchemaWrongKeyError`. -/
def validateConfig (cfg : Config) : Bool := cfg.all topEntryOk

mutual

/-- Python `repr` of an embedded value (single-quoted strings,
`True`/`False`, brace-delimited dicts). -/
def pyRepr : Value → String
  | Value.vStr s => "\x27" ++ s ++ "\x27"
  | Value.vInt n => toString n
  | Value.vBool b => if b then "True" else "False"
  | Value.vMap m => "\x7b" ++ pyReprEntries m ++ "\x7d"

/-- Python `repr` of the entries of an embedded dict. -/
def pyReprEntries : List (String × Value) → String
  | [] => ""
  | [(k, v)] => "\x27" ++ k ++ "\x27: " ++ pyRepr v
  | (k, v) :: rest => "\x27" ++ k ++ "\x27: " ++ pyRepr v ++ ", " ++ pyReprEntries rest

end

/-- Python `str` of an embedded value, as the f-strings of
`_save_config` apply it. -/
def valueToString : Value → String
  | Value.vStr s => s
  | v => pyRepr v

/-- One conditional block of the sidecar writing in `_save_config`: when
section `k` is present it must be a mapping (Python calls `.get` on
it), and each listed environment variable receives the stringified
subkey value, defaulting to the empty string. -/
def sidecarSection (cfg : Config) (k : String) (vars : List (String × String)) :
    Option (List (String × String)) :=
  match lookupA cfg k with
  | none => some []
  | some (Value.vMap m) =>
    some (vars.map fun p => (p.1, valueToString ((lookupA m p.2).getD (Value.vStr ""))))
  | some _ => none

/-- The `.env` sidecar written by `ConfigManager._save_config`
(config_manager.py lines 262-275), embedded as the list of
`KEY=VALUE` pairs in file order. -/
def sidecarPairs (cfg : Config) : Option (List (String × String)) := do
  let base := [
    ("MATRIX_SERVER_NAME", valueToString ((lookupA cfg "matrix_server_name").getD (Value.vStr ""))),
    ("MATRIX_DOMAIN", valueToString ((lookupA cfg "matrix_domain").getD (Value.vStr "")))]
  let cf ← sidecarSection cfg "cloudflare"
    [("CLOUDFLARE_API_TOKEN", "api_token"), ("CLOUDFLARE_EMAIL", "email")]
  let rc ← sidecarSection cfg "rclone"
    [("RCLONE_REMOTE", "remote"), ("RCLONE_PATH", "path")]
  let tn ← sidecarSection cfg "turn" [("TURN_SECRET", "secret")]
  return base ++ cf ++ rc ++ tn

/-- Embedding of `ConfigManager.set` together with the `_save_config`
it triggers (config_manager.py lines 305-326): the updated mapping —
which is also the content of the persisted structured file, taking the
YAML round trip as the identity — and the `.env` sidecar pairs. -/
def set_and_save (cfg : Config) (key : String) (v : Value) :
    Option (Config × List (String × String)) := do
  let c ← configSet cfg key v
  let sc ← sidecarPairs c
  return (c, sc)

/-- Plain association lookup on the sidecar pairs. -/
def lookupStr : List (String × String) → String → Option String
  | [], _ => none
  | (k, v) :: rest, key => if k = key then some v else lookupStr rest key

/-- Embedding of `load_dotenv(self.env_file)`: a sidecar variable enters the
environment only when the ambient environment does not already define
it (the python-dotenv default `override=False`). -/
def dotenvMerge (ambient : Env) (sidecar : List (String × String)) : Env :=
  fun k =>
    match ambient k with
    | some s => some s
    | none => lookupStr sidecar k

/-- A fresh `ConfigManager._load_config` (config_manager.py lines
53-80) of a previously saved configuration: the structured file
contributes `saved` (YAML round trip taken as the identity),
`load_dotenv` merges the sidecar into the ambient environment, and
`_load_from_env` applies the environment overrides. -/
def freshLoad (saved : Config) (sidecar : List (String × String)) (ambient : Env) :
    Option Config :=
  load_from_env (dotenvMerge ambient sidecar) saved

/-- The downgrade rule of `PhaseManager._adjust_phases_for_optimization`
(phase_manager.py lines 117-124): the requested level is forced down to
the detected level when `high` was requested but not detected, or
`standard` was requested while `low` was detected. -/
def adjustLevel (requested detected : Level) : Level :=
  if (requested = Level.high ∧ detected ≠ Level.high) ∨
      (requested = Level.standard ∧ detected = Level.low) then detected
  else requested

/-- Embedding of `PhaseManager._adjust_phases_for_optimization`
(phase_manager.py lines 112-129): the effective level, and the
configuration after the `set` call on the key `optimization_level`. -/
def adjust_phases_for_optimization (requested detected : Level) (cfg : Config) :
    Level × Option Config :=
  (adjustLevel requested detected,
    configSet cfg "optimization_level" (Value.vStr (levelStr (adjustLevel requested detected))))

/-- A configuration key targeted by a recognized environment variable:
either a top-level key or a subkey of a section. -/
inductive CfgPath where
  | top (k : String)
  | sub (k s : String)

/-- Reading a targeted key from the configuration mapping. -/
def pathGetOpt (cfg : Config) : CfgPath → Option Value
  | CfgPath.top k => lookupA cfg k
  | CfgPath.sub k s =>
    match lookupA cfg k with
    | some (Value.vMap m) => lookupA m s
    | _ => none

/-- The environment-variable-to-configuration-key table implemented by
`_load_from_env`. -/
def recognizedEnvPairs : List (String × CfgPath) :=
  [("MATRIX_SERVER_NAME", CfgPath.top "matrix_server_name"),
   ("MATRIX_DOMAIN", CfgPath.top "matrix_domain"),
   ("CLOUDFLARE_API_TOKEN", CfgPath.sub "cloudflare" "api_token"),
   ("CLOUDFLARE_EMAIL", CfgPath.sub "cloudflare" "email"),
   ("RCLONE_REMOTE", CfgPath.sub "rclone" "remote"),
   ("RCLONE_PATH", CfgPath.sub "rclone" "path"),
   ("TURN_SECRET", CfgPath.sub "turn" "secret")]

/-- The C9 precondition, checked recursively: every value encountered
at an intermediate segment of the traversal is a mapping. -/
def mapsOnlyPath : Value → List String → Bool
  | _, [] => true
  | Value.vMap m, part :: rest =>
    match lookupA m part with
    | none => true
    | some v => mapsOnlyPath v rest
  | _, _ :: _ => false

/-- The clean total reading of the `get` traversal: the default value
whenever a segment is absent (and, vacuously under the C9
precondition, at a non-mapping intermediate). -/
def getPureGo (dflt : Value) : Value → List String → Value
  | v, [] => v
  | Value.vMap m, part :: rest =>
    match lookupA m part with
    | none => dflt
    | some v => getPureGo dflt v rest
  | _, _ :: _ => dflt

/-- The clean total reading of `get(key, default)`. -/
def getPure (cfg : Config) (key : String) (dflt : Value) : Value :=
  if key.data.contains (Char.ofNat 46) then getPureGo dflt (Value.vMap cfg) (splitOnChar (Char.ofNat 46) key)
  else (lookupA cfg key).getD dflt

/-- Environment of the C5 counterexample: `MATRIX_DOMAIN` is set in the
environment, but to the empty string. -/
def envC5 : Env := fun k => if k = "MATRIX_DOMAIN" then some "" else none

/-- Ambient environment of the C6 counterexample: `TURN_SECRET` is set
to `x`. -/
def envC6 : Env := fun k => if k = "TURN_SECRET" then some "x" else none

/-- Every lifecycle call recorded from position `i` onward concerns a
phase at position at least `i`. -/
theorem runAllAux_idx_le (ps : List Phase) :
    ∀ (i : Nat) (skip : List String), ∀ e ∈ (runAllAux ps i skip).2, i ≤ e.idx := by
  induction ps with
  | nil => intro i skip e he; simp [runAllAux] at he
  | cons p rest ih =>
    intro i skip e he
    have htail : ∀ e ∈ (runAllAux rest (i + 1) skip).2, i ≤ e.idx := by
      intro e he
      exact Nat.le_of_succ_le (ih (i + 1) skip e he)
    by_cases hs : p.name ∈ skip
    · rw [runAllAux, if_pos hs] at he
      exact htail e he
    · rw [runAllAux, if_neg hs] at he
      by_cases hp : p.prereq = false
      · rw [if_pos hp] at he
        by_cases hr : p.required
        · simp [hr] at he; subst he; exact Nat.le_refl i
        · simp [hr] at he
          rcases he with he | he
          · subst he; exact Nat.le_refl i
          · exact htail e he
      · rw [if_neg hp] at he
        cases hex : p.exec with
        | retTrue =>
          rw [hex] at he; simp at he
          rcases he with he | he | he | he
          all_goals first
          | (subst he; exact Nat.le_refl i)
          | (exact htail e he)
        | retFalse =>
          rw [hex] at he
          by_cases hr : p.required
          · simp [hr] at he
            rcases he with he | he | he | he
            all_goals (subst he; exact Nat.le_refl i)
          · simp [hr] at he
            rcases he with he | he | he | he
            all_goals first
            | (subst he; exact Nat.le_refl i)
            | (exact htail e he)
        | raises =>
          rw [hex] at he
          by_cases hr : p.required
          · simp [hr] at he
            rcases he with he | he | he | he
            all_goals (subst he; exact Nat.le_refl i)
          · simp [hr] at he
            rcases he with he | he | he | he | he
            all_goals first
            | (subst he; exact Nat.le_refl i)
            | (exact htail e he)

/-- An event about a position below `i` is absent from the trace of the
run that starts at position `i`. -/
theorem runAllAux_not_mem_of_idx_lt (ps : List Phase) (i : Nat) (skip : List String)
    (e : Event) (hlt : e.idx < i) : e ∉ (runAllAux ps i skip).2 := by
  intro hmem
  exact absurd (runAllAux_idx_le ps i skip e hmem) (Nat.not_le.mpr hlt)

/-- An event about a position below `i` is counted zero times in the
trace of the run that starts at position `i`. -/
theorem runAllAux_count_zero_of_idx_lt (ps : List Phase) (i : Nat) (skip : List String)
    (e : Event) (hlt : e.idx < i) : List.count e (runAllAux ps i skip).2 = 0 :=
  List.count_eq_zero.mpr (runAllAux_not_mem_of_idx_lt ps i skip e hlt)

/-- Characterization of rollback calls in `run_all_phases`: position `j`
is rolled back exactly once when its `execute` was entered and its
outcome triggers a rollback (it raised, or returned falsy on a required
phase), and never otherwise. -/
theorem runAllAux_rollback_spec (ps : List Phase) :
    ∀ (i : Nat) (skip : List String) (j : Nat) (h : j < ps.length),
      List.count (Event.rollbackCall (i + j)) (runAllAux ps i skip).2 =
        if Event.execCall (i + j) ∈ (runAllAux ps i skip).2 ∧
            rollbackTriggered (ps.get ⟨j, h⟩) then 1 else 0 := by
  induction ps with
  | nil => intro i skip j h; exact absurd h (Nat.not_lt_zero j)
  | cons p rest ih =>
    intro i skip j h
    cases j with
    | zero =>
      have hcz : List.count (Event.rollbackCall i) (runAllAux rest (i + 1) skip).2 = 0 :=
        runAllAux_count_zero_of_idx_lt rest (i + 1) skip _ (by simp [Event.idx])
      have hnm : Event.execCall i ∉ (runAllAux rest (i + 1) skip).2 :=
        runAllAux_not_mem_of_idx_lt rest (i + 1) skip _ (by simp [Event.idx])
      by_cases hs : p.name ∈ skip
      · simp only [runAllAux, if_pos hs, Nat.add_zero]
        simp [hcz, hnm]
      · simp only [runAllAux, if_neg hs, Nat.add_zero]
        by_cases hp : p.prereq = false
        · rw [if_pos hp]
          cases hr : p.required with
          | true => simp
          | false => simp [hcz, hnm]
        · rw [if_neg hp]
          cases hex : p.exec with
          | retTrue => simp [hcz, hnm, rollbackTriggered, hex]
          | retFalse =>
            cases hr : p.required with
            | true => simp [rollbackTriggered, hex, hr]
            | false => simp [hcz, hnm, rollbackTriggered, hex, hr]
          | raises =>
            cases hr : p.required with
            | true => simp [rollbackTriggered, hex, hr]
            | false => simp [hcz, hnm, rollbackTriggered, hex, hr]
    | succ jj =>
      have h2 : jj < rest.length := Nat.lt_of_succ_lt_succ h
      have harith : i + 1 + jj = i + (jj + 1) := by omega
      have hne : i + (jj + 1) ≠ i := by omega
      have IH := ih (i + 1) skip jj h2
      rw [harith] at IH
      by_cases hs : p.name ∈ skip
      · simp only [runAllAux, if_pos hs]
        simpa using IH
      · simp only [runAllAux, if_neg hs]
        by_cases hp : p.prereq = false
        · rw [if_pos hp]
          cases hr : p.required with
          | true => simp [hne]
          | false => simpa [hne] using IH
        · rw [if_neg hp]
          cases hex : p.exec with
          | retTrue => simpa [hne] using IH
          | retFalse =>
            cases hr : p.required with
            | true => simp [hne]
            | false => simpa [hne] using IH
          | raises =>
            cases hr : p.required with
            | true => simp [hne]
            | false => simpa [hne] using IH

/-- Abort behaviour of `run_all_phases`: if the phase at position `j`
had `execute` entered, `execute` returned falsy, and the phase is
required, then the run returns `False` and no later phase has its
prerequisites checked or its `execute` invoked. -/
theorem runAllAux_abort_spec (ps : List Phase) :
    ∀ (i : Nat) (skip : List String) (j : Nat) (h : j < ps.length),
      Event.execCall (i + j) ∈ (runAllAux ps i skip).2 →
      (ps.get ⟨j, h⟩).exec = ExecOutcome.retFalse →
      (ps.get ⟨j, h⟩).required = true →
      (runAllAux ps i skip).1 = false ∧
        ∀ m, i + j < m →
          Event.prereqCheck m ∉ (runAllAux ps i skip).2 ∧
          Event.execCall m ∉ (runAllAux ps i skip).2 := by
  induction ps with
  | nil => intro i skip j h; exact absurd h (Nat.not_lt_zero j)
  | cons p rest ih =>
    intro i skip j h hmem hexec hreq
    cases j with
    | zero =>
      have hnm : Event.execCall i ∉ (runAllAux rest (i + 1) skip).2 :=
        runAllAux_not_mem_of_idx_lt rest (i + 1) skip _ (by simp [Event.idx])
      have hpe : p.exec = ExecOutcome.retFalse := hexec
      have hpr : p.required = true := hreq
      rw [Nat.add_zero] at hmem ⊢
      by_cases hs : p.name ∈ skip
      · rw [runAllAux, if_pos hs] at hmem
        exact absurd hmem hnm
      · by_cases hp : p.prereq = false
        · rw [runAllAux, if_neg hs, if_pos hp, hpr] at hmem
          simp at hmem
        · simp only [runAllAux, if_neg hs, if_neg hp, hpe, hpr] at hmem ⊢
          refine ⟨rfl, ?_⟩
          intro m hm
          have hmi : m ≠ i := by omega
          constructor <;> simp [hmi]
    | succ jj =>
      have h2 : jj < rest.length := Nat.lt_of_succ_lt_succ h
      have harith : i + 1 + jj = i + (jj + 1) := by omega
      have hne : i + (jj + 1) ≠ i := by omega
      have hexec2 : (rest.get ⟨jj, h2⟩).exec = ExecOutcome.retFalse := hexec
      have hreq2 : (rest.get ⟨jj, h2⟩).required = true := hreq
      by_cases hs : p.name ∈ skip
      · rw [runAllAux, if_pos hs] at hmem ⊢
        rw [← harith] at hmem ⊢
        exact ih (i + 1) skip jj h2 hmem hexec2 hreq2
      · by_cases hp : p.prereq = false
        · cases hr : p.required with
          | true =>
            rw [runAllAux, if_neg hs, if_pos hp, hr] at hmem
            simp [hne] at hmem
          | false =>
            simp only [runAllAux, if_neg hs, if_pos hp, hr] at hmem ⊢
            simp only [if_neg (by simp : ¬ (false = true)), List.mem_cons] at hmem
            rcases hmem with hmem | hmem
            · exact absurd hmem (by simp [hne])
            · rw [← harith] at hmem
              obtain ⟨hres, hall⟩ := ih (i + 1) skip jj h2 hmem hexec2 hreq2
              rw [harith] at hall
              refine ⟨by simpa using hres, ?_⟩
              intro m hm
              have hmi : m ≠ i := by omega
              obtain ⟨h1, h3⟩ := hall m hm
              constructor <;> simp [hmi, h1, h3]
        · cases hex : p.exec with
          | retTrue =>
            simp only [runAllAux, if_neg hs, if_neg hp, hex] at hmem ⊢
            simp only [List.mem_cons] at hmem
            rcases hmem with hmem | hmem | hmem | hmem
            · exact absurd hmem (by simp)
            · exact absurd hmem (by simp [hne])
            · exact absurd hmem (by simp)
            · rw [← harith] at hmem
              obtain ⟨hres, hall⟩ := ih (i + 1) skip jj h2 hmem hexec2 hreq2
              rw [harith] at hall
              refine ⟨by simpa using hres, ?_⟩
              intro m hm
              have hmi : m ≠ i := by omega
              obtain ⟨h1, h3⟩ := hall m hm
              constructor <;> simp [hmi, h1, h3]
          | retFalse =>
            cases hr : p.required with
            | true =>
              rw [runAllAux, if_neg hs, if_neg hp, hex, hr] at hmem
              simp [hne] at hmem
            | false =>
              simp only [runAllAux, if_neg hs, if_neg hp, hex, hr] at hmem ⊢
              simp only [if_neg (by simp : ¬ (false = true)), List.mem_cons] at hmem
              rcases hmem with hmem | hmem | hmem | hmem
              · exact absurd hmem (by simp)
              · exact absurd hmem (by simp [hne])
              · exact absurd hmem (by simp)
              · rw [← harith] at hmem
                obtain ⟨hres, hall⟩ := ih (i + 1) skip jj h2 hmem hexec2 hreq2
                rw [harith] at hall
                refine ⟨by simpa using hres, ?_⟩
                intro m hm
                have hmi : m ≠ i := by omega
                obtain ⟨h1, h3⟩ := hall m hm
                constructor <;> simp [hmi, h1, h3]
          | raises =>
            cases hr : p.required with
            | true =>
              rw [runAllAux, if_neg hs, if_neg hp, hex, hr] at hmem
              simp [hne] at hmem
            | false =>
              simp only [runAllAux, if_neg hs, if_neg hp, hex, hr] at hmem ⊢
              simp only [if_neg (by simp : ¬ (false = true)), List.mem_cons] at hmem
              rcases hmem with hmem | hmem | hmem | hmem | hmem
              · exact absurd hmem (by simp)
              · exact absurd hmem (by simp [hne])
              · exact absurd hmem (by simp)
              · exact absurd hmem (by simp)
              · rw [← harith] at hmem
                obtain ⟨hres, hall⟩ := ih (i + 1) skip jj h2 hmem hexec2 hreq2
                rw [harith] at hall
                refine ⟨by simpa using hres, ?_⟩
                intro m hm
                have hmi : m ≠ i := by omega
                obtain ⟨h1, h3⟩ := hall m hm
                constructor <;> simp [hmi, h1, h3]

/-- A run in which every phase is named in the skip list performs no
lifecycle call and returns `True`. -/
theorem runAllAux_all_skipped (ps : List Phase) :
    ∀ (i : Nat) (skip : List String), (∀ p ∈ ps, p.name ∈ skip) →
      runAllAux ps i skip = (true, []) := by
  induction ps with
  | nil => intro i skip _; rfl
  | cons p rest ih =>
    intro i skip hall
    rw [runAllAux, if_pos (hall p (List.mem_cons_self p rest))]
    exact ih (i + 1) skip (fun q hq => hall q (List.mem_cons_of_mem p hq))

/-- C2 counterexample: an optional phase whose `execute` was entered and
returned falsy is never rolled back by `run_all_phases` — the claim
demands exactly one rollback for it. -/
theorem rollback_optional_false_cex :
    Event.execCall 0 ∈
        (runAllPhases [⟨"Backup", false, true, ExecOutcome.retFalse⟩] []).2 ∧
      List.count (Event.rollbackCall 0)
        (runAllPhases [⟨"Backup", false, true, ExecOutcome.retFalse⟩] []).2 = 0 := by
  decide

/-- C2 (amended): in `run_all_phases`, `rollback` is called exactly once
on a phase whose `execute` was entered and either raised, or returned
falsy while the phase is required; it is called zero times in every
other case — in particular zero times on an optional phase that
returned falsy and zero times on any phase whose `execute` was never
entered. -/
theorem rollback_called_iff_triggered (ps : List Phase) (skip : List String)
    (j : Nat) (h : j < ps.length) :
    List.count (Event.rollbackCall j) (runAllPhases ps skip).2 =
      if Event.execCall j ∈ (runAllPhases ps skip).2 ∧
          rollbackTriggered (ps.get ⟨j, h⟩) then 1 else 0 := by
  have hspec := runAllAux_rollback_spec ps 0 skip j h
  simpa using hspec

/-- Witness for the C2 theorem at a concrete one-phase run whose
required phase raises: its rollback is counted exactly once. -/
theorem rollback_called_iff_triggered_witness :
    List.count (Event.rollbackCall 0)
      (runAllPhases [⟨"Docker", true, true, ExecOutcome.raises⟩] []).2 = 1 := by
  have h := rollback_called_iff_triggered
    [⟨"Docker", true, true, ExecOutcome.raises⟩] [] 0 (by decide)
  rw [h]
  decide

/-- C7: if the `execute` of a non-skipped required phase was entered and
returned falsy, `run_all_phases` returns `False` and no later phase has
its prerequisites checked or its `execute` invoked. -/
theorem required_false_aborts (ps : List Phase) (skip : List String)
    (j : Nat) (h : j < ps.length)
    (hmem : Event.execCall j ∈ (runAllPhases ps skip).2)
    (hexec : (ps.get ⟨j, h⟩).exec = ExecOutcome.retFalse)
    (hreq : (ps.get ⟨j, h⟩).required = true) :
    (runAllPhases ps skip).1 = false ∧
      ∀ m, j < m →
        Event.prereqCheck m ∉ (runAllPhases ps skip).2 ∧
        Event.execCall m ∉ (runAllPhases ps skip).2 := by
  have hspec := runAllAux_abort_spec ps 0 skip j h (by simpa using hmem) hexec hreq
  simpa using hspec

/-- Witness for the C7 theorem: a required first phase returning falsy
makes the run fail and keeps the second phase from being executed. -/
theorem required_false_aborts_witness :
    (runAllPhases [⟨"Docker", true, true, ExecOutcome.retFalse⟩,
        ⟨"Network", true, true, ExecOutcome.retTrue⟩] []).1 = false ∧
      Event.execCall 1 ∉
        (runAllPhases [⟨"Docker", true, true, ExecOutcome.retFalse⟩,
          ⟨"Network", true, true, ExecOutcome.retTrue⟩] []).2 := by
  obtain ⟨h1, h2⟩ := required_false_aborts
    [⟨"Docker", true, true, ExecOutcome.retFalse⟩,
      ⟨"Network", true, true, ExecOutcome.retTrue⟩] [] 0
    (by decide) (by decide) (by decide) (by decide)
  exact ⟨h1, (h2 1 (by decide)).2⟩

/-- C10: when every registered phase is named in the skip list (and in
particular when the phase list is empty), `run_all_phases` returns
`True` and performs no lifecycle call at all. -/
theorem runAll_all_skipped_success (ps : List Phase) (skip : List String)
    (hall : ∀ p ∈ ps, p.name ∈ skip) :
    runAllPhases ps skip = (true, []) :=
  runAllAux_all_skipped ps 0 skip hall

/-- Witness for the C10 theorem at a concrete two-phase list whose
names are both in the skip list. -/
theorem runAll_all_skipped_success_witness :
    runAllPhases [⟨"Docker", true, true, ExecOutcome.retTrue⟩,
        ⟨"Network", false, true, ExecOutcome.raises⟩] ["Docker", "Network"] =
      (true, []) :=
  runAll_all_skipped_success _ _ (by decide)

/-- C1 counterexample: with 8 cores, 8 GB RAM and 0 GB free disk the
code returns `high`, although the profile meets the disk threshold of no
level, so the all-three-thresholds rule of the spec yields `low`. -/
theorem determine_level_ignores_disk_cex :
    determine_optimization_level ⟨8, 8, 0⟩ = Level.high ∧
      specOptimizationLevel ⟨8, 8, 0⟩ = Level.low ∧
      ¬ meetsAllThree ⟨8, 8, 0⟩ Level.high ∧
      determine_optimization_level ⟨8, 8, 0⟩ ≠ specOptimizationLevel ⟨8, 8, 0⟩ := by
  refine ⟨by decide, by decide, by decide, by decide⟩

/-- C1 (amended): `determine_optimization_level` returns the highest
level whose CPU-core and RAM thresholds are both met, defaulting to
`low`; the free-disk column of the table is never consulted, so the
result is unchanged under any change of `disk_free_gb`.  The
worked example of the spec (2 cores, 2 GB RAM, 20 GB disk) still yields `low`. -/
theorem determine_level_cpu_ram_highest (p : Profile) :
    (meetsCpuRam p (determine_optimization_level p) ∨
        determine_optimization_level p = Level.low) ∧
      (∀ l, meetsCpuRam p l →
        levelRank l ≤ levelRank (determine_optimization_level p)) ∧
      (∀ q : Profile, q.cpu_cores = p.cpu_cores → q.memory_gb = p.memory_gb →
        determine_optimization_level q = determine_optimization_level p) ∧
      determine_optimization_level ⟨2, 2, 20⟩ = Level.low := by
  by_cases h8 : ramGbMin .high ≤ p.memory_gb ∧ cpuCoresMin .high ≤ p.cpu_cores
  · rw [determine_optimization_level, if_pos h8]
    refine ⟨Or.inl ⟨h8.2, h8.1⟩, ?_, ?_, by decide⟩
    · intro l _; cases l <;> decide
    · intro q hc hm
      rw [determine_optimization_level, hc, hm, if_pos h8]
  · by_cases h4 : ramGbMin .standard ≤ p.memory_gb ∧ cpuCoresMin .standard ≤ p.cpu_cores
    · rw [determine_optimization_level, if_neg h8, if_pos h4]
      refine ⟨Or.inl ⟨h4.2, h4.1⟩, ?_, ?_, by decide⟩
      · intro l hl
        cases l with
        | high => exact absurd ⟨hl.2, hl.1⟩ h8
        | standard => decide
        | low => decide
      · intro q hc hm
        rw [determine_optimization_level, hc, hm, if_neg h8, if_pos h4]
    · rw [determine_optimization_level, if_neg h8, if_neg h4]
      refine ⟨Or.inr rfl, ?_, ?_, by decide⟩
      · intro l hl
        cases l with
        | high => exact absurd ⟨hl.2, hl.1⟩ h8
        | standard => exact absurd ⟨hl.2, hl.1⟩ h4
        | low => decide
      · intro q hc hm
        rw [determine_optimization_level, hc, hm, if_neg h8, if_neg h4]

/-- Witness for the C1 amended theorem at a profile with 4 cores and
4 GB RAM: it qualifies for `standard` by CPU and RAM alone even with no
free disk, and the function returns a level at least as high. -/
theorem determine_level_cpu_ram_highest_witness :
    meetsCpuRam ⟨4, 4, 0⟩ Level.standard ∧
      levelRank Level.standard ≤
        levelRank (determine_optimization_level ⟨4, 4, 0⟩) := by
  refine ⟨by decide, ?_⟩
  exact (determine_level_cpu_ram_highest ⟨4, 4, 0⟩).2.1 Level.standard (by decide)

/-- Looking up the key just assigned yields the assigned value. -/
theorem lookupA_insertA_self (m : Config) (k : String) (v : Value) :
    lookupA (insertA m k v) k = some v := by
  induction m with
  | nil => simp [insertA, lookupA]
  | cons p rest ih =>
    obtain ⟨k1, v1⟩ := p
    by_cases h : k1 = k
    · simp [insertA, h, lookupA]
    · simp [insertA, h, lookupA, ih]

/-- Assigning one key leaves the lookup of any other key unchanged. -/
theorem lookupA_insertA_ne (m : Config) (k k2 : String) (v : Value) (h : k ≠ k2) :
    lookupA (insertA m k v) k2 = lookupA m k2 := by
  induction m with
  | nil => simp [insertA, lookupA, h]
  | cons p rest ih =>
    obtain ⟨k1, v1⟩ := p
    by_cases h1 : k1 = k
    · subst h1; simp [insertA, lookupA, h]
    · simp [insertA, h1, lookupA, ih]

/-- A succeeding `setSub` stores the assigned subkey value. -/
theorem setSub_self (cfg cfg2 : Config) (k sub : String) (v : Value)
    (h : setSub cfg k sub v = some cfg2) :
    pathGetOpt cfg2 (CfgPath.sub k sub) = some v := by
  unfold setSub at h
  cases hl : lookupA cfg k with
  | none =>
    rw [hl] at h
    obtain rfl : insertA cfg k (Value.vMap (insertA [] sub v)) = cfg2 := by
      injection h
    simp [pathGetOpt, lookupA_insertA_self]
  | some w =>
    rw [hl] at h
    cases w with
    | vMap m =>
      obtain rfl : insertA cfg k (Value.vMap (insertA m sub v)) = cfg2 := by
        injection h
      simp [pathGetOpt, lookupA_insertA_self]
    | vStr s => exact absurd h (by simp)
    | vBool b => exact absurd h (by simp)
    | vInt n => exact absurd h (by simp)

/-- A succeeding `setSub` on one section leaves top-level lookups of other keys
unchanged. -/
theorem setSub_lookup_ne (cfg cfg2 : Config) (k sub : String) (v : Value)
    (k2 : String) (h : setSub cfg k sub v = some cfg2) (hne : k ≠ k2) :
    lookupA cfg2 k2 = lookupA cfg k2 := by
  unfold setSub at h
  cases hl : lookupA cfg k with
  | none =>
    rw [hl] at h
    obtain rfl : insertA cfg k (Value.vMap (insertA [] sub v)) = cfg2 := by
      injection h
    exact lookupA_insertA_ne cfg k k2 _ hne
  | some w =>
    rw [hl] at h
    cases w with
    | vMap m =>
      obtain rfl : insertA cfg k (Value.vMap (insertA m sub v)) = cfg2 := by
        injection h
      exact lookupA_insertA_ne cfg k k2 _ hne
    | vStr s => exact absurd h (by simp)
    | vBool b => exact absurd h (by simp)
    | vInt n => exact absurd h (by simp)

/-- A succeeding `setSub` leaves any distinct targeted subkey unchanged. -/
theorem setSub_pathGet_ne (cfg cfg2 : Config) (k sub : String) (v : Value)
    (k1 s1 : String) (h : setSub cfg k sub v = some cfg2)
    (hdiff : k ≠ k1 ∨ sub ≠ s1) :
    pathGetOpt cfg2 (CfgPath.sub k1 s1) = pathGetOpt cfg (CfgPath.sub k1 s1) := by
  rcases hdiff with hk | hs
  · simp only [pathGetOpt]
    rw [setSub_lookup_ne cfg cfg2 k sub v k1 h hk]
  · by_cases hk : k = k1
    · subst hk
      unfold setSub at h
      cases hl : lookupA cfg k with
      | none =>
        rw [hl] at h
        obtain rfl : insertA cfg k (Value.vMap (insertA [] sub v)) = cfg2 := by
          injection h
        simp [pathGetOpt, lookupA_insertA_self, hl,
          lookupA_insertA_ne [] sub s1 v hs, lookupA, hs]
      | some w =>
        rw [hl] at h
        cases w with
        | vMap m =>
          obtain rfl : insertA cfg k (Value.vMap (insertA m sub v)) = cfg2 := by
            injection h
          simp [pathGetOpt, lookupA_insertA_self, hl,
            lookupA_insertA_ne m sub s1 v hs]
        | vStr s => exact absurd h (by simp)
        | vBool b => exact absurd h (by simp)
        | vInt n => exact absurd h (by simp)
    · simp only [pathGetOpt]
      rw [setSub_lookup_ne cfg cfg2 k sub v k1 h hk]

/-- An `envStepTop` leaves the lookup of any other key unchanged. -/
theorem envStepTop_lookup_ne (env : Env) (name key : String) (cfg : Config)
    (k2 : String) (hne : key ≠ k2) :
    lookupA (envStepTop env name key cfg) k2 = lookupA cfg k2 := by
  unfold envStepTop
  by_cases hb : envTruthy env name = true
  · rw [if_pos hb]; exact lookupA_insertA_ne cfg key k2 _ hne
  · rw [if_neg hb]

/-- An `envStepTop` leaves every targeted subkey unchanged. -/
theorem envStepTop_pathSub (env : Env) (name key : String) (cfg : Config)
    (k1 s1 : String) (hne : key ≠ k1) :
    pathGetOpt (envStepTop env name key cfg) (CfgPath.sub k1 s1) =
      pathGetOpt cfg (CfgPath.sub k1 s1) := by
  simp only [pathGetOpt]
  rw [envStepTop_lookup_ne env name key cfg k1 hne]

/-- A truthy `envStepTop` stores the environment value at its key. -/
theorem envStepTop_self (env : Env) (name key : String) (cfg : Config)
    (hb : envTruthy env name = true) :
    lookupA (envStepTop env name key cfg) key = some (Value.vStr (envGet env name)) := by
  unfold envStepTop
  rw [if_pos hb]
  exact lookupA_insertA_self cfg key _

/-- A succeeding `envStepSub` leaves top-level lookups of other keys
unchanged. -/
theorem envStepSub_lookup_ne (env : Env) (name k sub : String) (cfg cfg2 : Config)
    (k2 : String) (h : envStepSub env name k sub cfg = some cfg2) (hne : k ≠ k2) :
    lookupA cfg2 k2 = lookupA cfg k2 := by
  unfold envStepSub at h
  by_cases hb : envTruthy env name = true
  · rw [if_pos hb] at h
    exact setSub_lookup_ne cfg cfg2 k sub _ k2 h hne
  · rw [if_neg hb] at h
    obtain rfl : cfg = cfg2 := by injection h
    rfl

/-- A succeeding `envStepSub` leaves any distinct targeted subkey
unchanged. -/
theorem envStepSub_pathGet_ne (env : Env) (name k sub : String) (cfg cfg2 : Config)
    (k1 s1 : String) (h : envStepSub env name k sub cfg = some cfg2)
    (hdiff : k ≠ k1 ∨ sub ≠ s1) :
    pathGetOpt cfg2 (CfgPath.sub k1 s1) = pathGetOpt cfg (CfgPath.sub k1 s1) := by
  unfold envStepSub at h
  by_cases hb : envTruthy env name = true
  · rw [if_pos hb] at h
    exact setSub_pathGet_ne cfg cfg2 k sub _ k1 s1 h hdiff
  · rw [if_neg hb] at h
    obtain rfl : cfg = cfg2 := by injection h
    rfl

/-- A truthy succeeding `envStepSub` stores the environment value at its
targeted subkey. -/
theorem envStepSub_self (env : Env) (name k sub : String) (cfg cfg2 : Config)
    (hb : envTruthy env name = true)
    (h : envStepSub env name k sub cfg = some cfg2) :
    pathGetOpt cfg2 (CfgPath.sub k sub) = some (Value.vStr (envGet env name)) := by
  unfold envStepSub at h
  rw [if_pos hb] at h
  exact setSub_self cfg cfg2 k sub _ h

/-- Reduction of an `Option` bind on a present value. -/
theorem optionSomeBind {α β : Type} (b : α) (g : α → Option β) :
    (some b >>= g) = g b := rfl

/-- Reduction of an `Option` bind on an absent value. -/
theorem optionNoneBind {α β : Type} (g : α → Option β) :
    ((none : Option α) >>= g) = none := rfl

/-- Whenever `_load_from_env` completes, every recognized environment
variable that was present and non-empty has its value stored at the
mapped configuration key. -/
theorem load_from_env_spec (env : Env) (cfg cfg2 : Config)
    (hload : load_from_env env cfg = some cfg2) :
    ∀ name path, (name, path) ∈ recognizedEnvPairs → envTruthy env name = true →
      pathGetOpt cfg2 path = some (Value.vStr (envGet env name)) := by
  unfold load_from_env at hload
  cases h3 : envStepSub env "CLOUDFLARE_API_TOKEN" "cloudflare" "api_token"
      (envStepTop env "MATRIX_DOMAIN" "matrix_domain"
        (envStepTop env "MATRIX_SERVER_NAME" "matrix_server_name" cfg)) with
  | none => rw [h3, optionNoneBind] at hload; exact Option.noConfusion hload
  | some c3 =>
  rw [h3, optionSomeBind] at hload
  cases h4 : envStepSub env "CLOUDFLARE_EMAIL" "cloudflare" "email" c3 with
  | none => rw [h4, optionNoneBind] at hload; exact Option.noConfusion hload
  | some c4 =>
  rw [h4, optionSomeBind] at hload
  cases h5 : envStepSub env "RCLONE_REMOTE" "rclone" "remote" c4 with
  | none => rw [h5, optionNoneBind] at hload; exact Option.noConfusion hload
  | some c5 =>
  rw [h5, optionSomeBind] at hload
  cases h6 : envStepSub env "RCLONE_PATH" "rclone" "path" c5 with
  | none => rw [h6, optionNoneBind] at hload; exact Option.noConfusion hload
  | some c6 =>
  rw [h6, optionSomeBind] at hload
  intro name path hmem htru
  simp only [recognizedEnvPairs, List.mem_cons, List.not_mem_nil, or_false,
    Prod.mk.injEq] at hmem
  rcases hmem with ⟨rfl, rfl⟩ | ⟨rfl, rfl⟩ | ⟨rfl, rfl⟩ | ⟨rfl, rfl⟩ |
    ⟨rfl, rfl⟩ | ⟨rfl, rfl⟩ | ⟨rfl, rfl⟩
  · simp only [pathGetOpt]
    rw [envStepSub_lookup_ne env _ _ _ c6 cfg2 _ hload (by decide),
      envStepSub_lookup_ne env _ _ _ c5 c6 _ h6 (by decide),
      envStepSub_lookup_ne env _ _ _ c4 c5 _ h5 (by decide),
      envStepSub_lookup_ne env _ _ _ c3 c4 _ h4 (by decide),
      envStepSub_lookup_ne env _ _ _ _ c3 _ h3 (by decide),
      envStepTop_lookup_ne env _ "matrix_domain" _ _ (by decide)]
    exact envStepTop_self env _ _ cfg htru
  · simp only [pathGetOpt]
    rw [envStepSub_lookup_ne env _ _ _ c6 cfg2 _ hload (by decide),
      envStepSub_lookup_ne env _ _ _ c5 c6 _ h6 (by decide),
      envStepSub_lookup_ne env _ _ _ c4 c5 _ h5 (by decide),
      envStepSub_lookup_ne env _ _ _ c3 c4 _ h4 (by decide),
      envStepSub_lookup_ne env _ _ _ _ c3 _ h3 (by decide)]
    exact envStepTop_self env _ _ _ htru
  · rw [envStepSub_pathGet_ne env _ _ _ c6 cfg2 _ _ hload (Or.inl (by decide)),
      envStepSub_pathGet_ne env _ _ _ c5 c6 _ _ h6 (Or.inl (by decide)),
      envStepSub_pathGet_ne env _ _ _ c4 c5 _ _ h5 (Or.inl (by decide)),
      envStepSub_pathGet_ne env _ _ _ c3 c4 _ _ h4 (Or.inr (by decide))]
    exact envStepSub_self env _ _ _ _ c3 htru h3
  · rw [envStepSub_pathGet_ne env _ _ _ c6 cfg2 _ _ hload (Or.inl (by decide)),
      envStepSub_pathGet_ne env _ _ _ c5 c6 _ _ h6 (Or.inl (by decide)),
      envStepSub_pathGet_ne env _ _ _ c4 c5 _ _ h5 (Or.inl (by decide))]
    exact envStepSub_self env _ _ _ c3 c4 htru h4
  · rw [envStepSub_pathGet_ne env _ _ _ c6 cfg2 _ _ hload (Or.inl (by decide)),
      envStepSub_pathGet_ne env _ _ _ c5 c6 _ _ h6 (Or.inr (by decide))]
    exact envStepSub_self env _ _ _ c4 c5 htru h5
  · rw [envStepSub_pathGet_ne env _ _ _ c6 cfg2 _ _ hload (Or.inl (by decide))]
    exact envStepSub_self env _ _ _ c5 c6 htru h6
  · exact envStepSub_self env _ _ _ c6 cfg2 htru hload

/-- When no recognized environment variable is present and non-empty,
`_load_from_env` leaves the configuration unchanged. -/
theorem load_from_env_id (env : Env) (cfg : Config)
    (h : ∀ pr ∈ recognizedEnvPairs, envTruthy env pr.1 = false) :
    load_from_env env cfg = some cfg := by
  have h1 : envTruthy env "MATRIX_SERVER_NAME" = false :=
    h ("MATRIX_SERVER_NAME", CfgPath.top "matrix_server_name") (by simp [recognizedEnvPairs])
  have h2 : envTruthy env "MATRIX_DOMAIN" = false :=
    h ("MATRIX_DOMAIN", CfgPath.top "matrix_domain") (by simp [recognizedEnvPairs])
  have h3 : envTruthy env "CLOUDFLARE_API_TOKEN" = false :=
    h ("CLOUDFLARE_API_TOKEN", CfgPath.sub "cloudflare" "api_token") (by simp [recognizedEnvPairs])
  have h4 : envTruthy env "CLOUDFLARE_EMAIL" = false :=
    h ("CLOUDFLARE_EMAIL", CfgPath.sub "cloudflare" "email") (by simp [recognizedEnvPairs])
  have h5 : envTruthy env "RCLONE_REMOTE" = false :=
    h ("RCLONE_REMOTE", CfgPath.sub "rclone" "remote") (by simp [recognizedEnvPairs])
  have h6 : envTruthy env "RCLONE_PATH" = false :=
    h ("RCLONE_PATH", CfgPath.sub "rclone" "path") (by simp [recognizedEnvPairs])
  have h7 : envTruthy env "TURN_SECRET" = false :=
    h ("TURN_SECRET", CfgPath.sub "turn" "secret") (by simp [recognizedEnvPairs])
  simp [load_from_env, envStepTop, envStepSub, h1, h2, h3, h4, h5, h6, h7]

/-- C5 counterexample: the file-sourced configuration sets
`matrix_domain` to `a.com` and the environment variable
`MATRIX_DOMAIN` is set (to the empty string), yet after loading the
configuration still holds the file value — the empty environment value
is falsy in Python, so `_load_from_env` does not override. -/
theorem env_empty_string_no_override_cex :
    envC5 "MATRIX_DOMAIN" = some "" ∧
      load_from_env envC5 [("matrix_domain", Value.vStr "a.com")] =
        some [("matrix_domain", Value.vStr "a.com")] := by
  exact ⟨rfl, rfl⟩

/-- C5 (amended): whenever `_load_from_env` completes, each recognized
environment variable that is set to a non-empty value ends up stored at
its mapped configuration key, overriding any file-sourced value there;
an environment variable set to the empty string does not override. -/
theorem env_nonempty_overrides (env : Env) (cfg cfg2 : Config)
    (name : String) (path : CfgPath) (s : String)
    (hpair : (name, path) ∈ recognizedEnvPairs)
    (hset : env name = some s) (hne : s ≠ "")
    (hload : load_from_env env cfg = some cfg2) :
    pathGetOpt cfg2 path = some (Value.vStr s) := by
  have htru : envTruthy env name = true := by
    unfold envTruthy
    rw [hset]
    simpa using hne
  have hval : envGet env name = s := by
    unfold envGet
    rw [hset]
    rfl
  have := load_from_env_spec env cfg cfg2 hload name path hpair htru
  rwa [hval] at this

/-- Witness for the C5 theorem: the worked example of the spec — the file
sets `matrix_domain=a.com`, the environment sets `MATRIX_DOMAIN=b.com`,
and the loaded configuration holds `b.com`. -/
theorem env_nonempty_overrides_witness :
    pathGetOpt [("matrix_domain", Value.vStr "b.com")]
        (CfgPath.top "matrix_domain") = some (Value.vStr "b.com") := by
  exact env_nonempty_overrides
    (fun k => if k = "MATRIX_DOMAIN" then some "b.com" else none)
    [("matrix_domain", Value.vStr "a.com")]
    [("matrix_domain", Value.vStr "b.com")]
    "MATRIX_DOMAIN" (CfgPath.top "matrix_domain") "b.com"
    (List.Mem.tail _ (List.Mem.head _)) rfl (by decide) rfl

/-- The Python `split` embedding never produces an empty list. -/
theorem splitOnCharAux_ne_nil (c : Char) :
    ∀ (l acc : List Char), splitOnCharAux c l acc ≠ [] := by
  intro l
  induction l with
  | nil => intro acc h; simp [splitOnCharAux] at h
  | cons d rest ih =>
    intro acc h
    unfold splitOnCharAux at h
    by_cases hd : d = c
    · rw [if_pos hd] at h; simp at h
    · rw [if_neg hd] at h; exact ih _ h

/-- The embedded `key.split` never produces an empty list. -/
theorem splitOnChar_ne_nil (c : Char) (s : String) : splitOnChar c s ≠ [] :=
  splitOnCharAux_ne_nil c s.data []

/-- Reading back the path just written by the `set` walk yields the
written value. -/
theorem getGo_after_setGo (v dflt : Value) :
    ∀ (parts : List String) (m m2 : Config),
      setGo v m parts = some m2 → parts ≠ [] →
      getGo dflt (Value.vMap m2) parts = Except.ok v := by
  intro parts
  induction parts with
  | nil => intro m m2 _ hne; exact absurd rfl hne
  | cons part rest ih =>
    intro m m2 hset _
    cases rest with
    | nil =>
      unfold setGo at hset
      obtain rfl : insertA m part v = m2 := by injection hset
      simp [getGo, lookupA_insertA_self]
    | cons next rest2 =>
      unfold setGo at hset
      cases hl : lookupA m part with
      | none =>
        rw [hl] at hset
        cases hrec : setGo v [] (next :: rest2) with
        | none => rw [hrec] at hset; exact Option.noConfusion hset
        | some m1 =>
          rw [hrec] at hset
          obtain rfl : insertA m part (Value.vMap m1) = m2 := by injection hset
          simp only [getGo, lookupA_insertA_self]
          exact ih [] m1 hrec (by simp)
      | some w =>
        rw [hl] at hset
        cases w with
        | vMap m0 =>
          dsimp only at hset
          cases hrec : setGo v m0 (next :: rest2) with
          | none => rw [hrec] at hset; exact Option.noConfusion hset
          | some m1 =>
            rw [hrec] at hset
            obtain rfl : insertA m part (Value.vMap m1) = m2 := by injection hset
            simp only [getGo, lookupA_insertA_self]
            exact ih m0 m1 hrec (by simp)
        | vStr s => exact Option.noConfusion hset
        | vBool b => exact Option.noConfusion hset
        | vInt n => exact Option.noConfusion hset

/-- C6 (amended): when `set(key, v)` succeeds (every existing value met
along the dotted path is a mapping), `get(key, default)` returns `v`;
and when no recognized environment variable is present and non-empty in
the effective environment after the sidecar is loaded, a fresh load of
the persisted configuration returns it unchanged, so `get` again yields
`v`. -/
theorem set_get_roundtrip (cfg : Config) (key : String) (v dflt : Value)
    (cfg2 : Config) (sc : List (String × String)) (ambient : Env)
    (hset : set_and_save cfg key v = some (cfg2, sc))
    (henv : ∀ pr ∈ recognizedEnvPairs,
      envTruthy (dotenvMerge ambient sc) pr.1 = false) :
    getConfig cfg2 key dflt = Except.ok v ∧
      freshLoad cfg2 sc ambient = some cfg2 := by
  unfold set_and_save at hset
  cases hc : configSet cfg key v with
  | none => rw [hc, optionNoneBind] at hset; exact Option.noConfusion hset
  | some c1 =>
    rw [hc, optionSomeBind] at hset
    cases hs : sidecarPairs c1 with
    | none => rw [hs, optionNoneBind] at hset; exact Option.noConfusion hset
    | some sc1 =>
      rw [hs, optionSomeBind] at hset
      have hset2 : some (c1, sc1) = some (cfg2, sc) := hset
      have hpair : c1 = cfg2 ∧ sc1 = sc := by
        have hp := Option.some.inj hset2
        exact ⟨congrArg Prod.fst hp, congrArg Prod.snd hp⟩
      obtain ⟨rfl, rfl⟩ := hpair
      constructor
      · unfold configSet at hc
        unfold getConfig
        by_cases hd : key.data.contains (Char.ofNat 46) = true
        · rw [if_pos hd]
          rw [if_pos hd] at hc
          exact getGo_after_setGo v dflt _ cfg c1 hc
            (splitOnChar_ne_nil (Char.ofNat 46) key)
        · rw [if_neg hd]
          rw [if_neg hd] at hc
          obtain rfl : insertA cfg key v = c1 := by injection hc
          rw [lookupA_insertA_self]
          rfl
      · unfold freshLoad
        exact load_from_env_id _ _ henv

/-- Witness for the C6 theorem: `set("a.b.c", "val")` on an empty
configuration, with an empty ambient environment; `get` returns the
value and a fresh load leaves the stored configuration unchanged. -/
theorem set_get_roundtrip_witness :
    getConfig [("a", Value.vMap [("b", Value.vMap [("c", Value.vStr "val")])])]
        "a.b.c" (Value.vStr "dd") = Except.ok (Value.vStr "val") ∧
      freshLoad [("a", Value.vMap [("b", Value.vMap [("c", Value.vStr "val")])])]
          [("MATRIX_SERVER_NAME", ""), ("MATRIX_DOMAIN", "")] (fun _ => none) =
        some [("a", Value.vMap [("b", Value.vMap [("c", Value.vStr "val")])])] := by
  exact set_get_roundtrip [] "a.b.c" (Value.vStr "val") (Value.vStr "dd")
    [("a", Value.vMap [("b", Value.vMap [("c", Value.vStr "val")])])]
    [("MATRIX_SERVER_NAME", ""), ("MATRIX_DOMAIN", "")]
    (fun _ => none) rfl (by decide)

/-- C6 counterexample: `set("turn.secret", "v")` persists and `get`
returns `v`, but a fresh load with the ambient environment variable
`TURN_SECRET=x` yields `x` for the key, not the `v` the claim
promises for every key. -/
theorem set_freshload_env_override_cex :
    set_and_save [] "turn.secret" (Value.vStr "v") =
        some ([("turn", Value.vMap [("secret", Value.vStr "v")])],
          [("MATRIX_SERVER_NAME", ""), ("MATRIX_DOMAIN", ""), ("TURN_SECRET", "v")]) ∧
      freshLoad [("turn", Value.vMap [("secret", Value.vStr "v")])]
          [("MATRIX_SERVER_NAME", ""), ("MATRIX_DOMAIN", ""), ("TURN_SECRET", "v")]
          envC6 =
        some [("turn", Value.vMap [("secret", Value.vStr "x")])] ∧
      getConfig [("turn", Value.vMap [("secret", Value.vStr "x")])] "turn.secret"
          (Value.vStr "dd") = Except.ok (Value.vStr "x") ∧
      Value.vStr "x" ≠ Value.vStr "v" := by
  refine ⟨rfl, rfl, rfl, ?_⟩
  intro h
  exact absurd (Value.vStr.inj h) (by decide)

/-- An entry failing its schema check makes the whole validation fail. -/
theorem validateConfig_false_of_mem (cfg : Config) (p : String × Value)
    (hmem : p ∈ cfg) (hfail : topEntryOk p = false) :
    validateConfig cfg = false := by
  cases hvc : validateConfig cfg with
  | false => rfl
  | true =>
    exfalso
    unfold validateConfig at hvc
    rw [List.all_eq_true] at hvc
    have ht := hvc p hmem
    rw [hfail] at ht
    exact Bool.noConfusion ht

/-- C8 counterexample: a configuration that validates becomes invalid
as soon as an unrecognized key is added — the `schema` call rejects
unknown keys by default, so validation is not forward compatible. -/
theorem validate_unknown_key_cex :
    validateConfig [("matrix_server_name", Value.vStr "matrix.example.com")] = true ∧
      validateConfig [("matrix_server_name", Value.vStr "matrix.example.com"),
        ("unknown_key", Value.vStr "x")] = false :=
  ⟨rfl, rfl⟩

/-- C8 (amended): validation tolerates missing optional keys (the
empty mapping validates), but rejects unknown keys: any entry whose key
is not one of the seven recognized top-level keys makes validation
fail, as does `optimization_level` carrying an enum value outside
low/standard/high or a non-string value. -/
theorem validate_characterization (cfg : Config) :
    validateConfig [] = true ∧
      (∀ k v, (k, v) ∈ cfg →
        k ∉ ["matrix_server_name", "matrix_domain", "admin_email",
          "cloudflare", "rclone", "turn", "optimization_level"] →
        validateConfig cfg = false) ∧
      (∀ s, ("optimization_level", Value.vStr s) ∈ cfg →
        s ∉ ["low", "standard", "high"] → validateConfig cfg = false) ∧
      (∀ n : Int, ("optimization_level", Value.vInt n) ∈ cfg →
        validateConfig cfg = false) := by
  refine ⟨rfl, ?_, ?_, ?_⟩
  · intro k v hmem hk
    refine validateConfig_false_of_mem cfg (k, v) hmem ?_
    simp only [List.mem_cons, List.not_mem_nil, or_false, not_or] at hk
    obtain ⟨h1, h2, h3, h4, h5, h6, h7⟩ := hk
    simp [topEntryOk, h1, h2, h3, h4, h5, h6, h7]
  · intro s hmem hs
    refine validateConfig_false_of_mem cfg _ hmem ?_
    simp only [List.mem_cons, List.not_mem_nil, or_false, not_or] at hs
    obtain ⟨hs1, hs2, hs3⟩ := hs
    simp [topEntryOk, hs1, hs2, hs3]
  · intro n hmem
    exact validateConfig_false_of_mem cfg _ hmem rfl

/-- Witness for the C8 theorem: `optimization_level` set to the illegal
enum value `turbo` fails validation. -/
theorem validate_characterization_witness :
    validateConfig [("optimization_level", Value.vStr "turbo")] = false := by
  exact (validate_characterization
      [("optimization_level", Value.vStr "turbo")]).2.2.1 "turbo"
    (List.Mem.head _) (by decide)

/-- Under the C9 precondition the traversal equals its total reading. -/
theorem getGo_eq_pure (dflt : Value) :
    ∀ (parts : List String) (v : Value), mapsOnlyPath v parts = true →
      getGo dflt v parts = Except.ok (getPureGo dflt v parts) := by
  intro parts
  induction parts with
  | nil => intro v _; cases v <;> rfl
  | cons part rest ih =>
    intro v hm
    cases v with
    | vMap m =>
      unfold mapsOnlyPath at hm
      cases hl : lookupA m part with
      | none => simp [getGo, getPureGo, hl]
      | some w =>
        rw [hl] at hm
        simp only [getGo, getPureGo, hl]
        exact ih w hm
    | vStr s => simp [mapsOnlyPath] at hm
    | vBool b => simp [mapsOnlyPath] at hm
    | vInt n => simp [mapsOnlyPath] at hm

/-- C9: under the precondition that every value met at an intermediate
segment of the dotted path is a mapping, `get(key, default)` never
raises and returns the total traversal value — the default whenever a
segment is absent; without the precondition it can raise, as it does on
a numeric intermediate. -/
theorem get_total_on_map_paths (cfg : Config) (key : String) (dflt : Value)
    (h : mapsOnlyPath (Value.vMap cfg) (splitOnChar (Char.ofNat 46) key) = true) :
    getConfig cfg key dflt = Except.ok (getPure cfg key dflt) ∧
      getConfig [("a", Value.vInt 5)] "a.b" dflt = Except.error () := by
  constructor
  · unfold getConfig getPure
    by_cases hc : key.data.contains (Char.ofNat 46) = true
    · rw [if_pos hc, if_pos hc]
      exact getGo_eq_pure dflt _ _ h
    · rw [if_neg hc, if_neg hc]
  · rfl

/-- Witness for the C9 theorem: a dotted key whose second segment is
absent returns the supplied default, without raising. -/
theorem get_total_on_map_paths_witness :
    getConfig [("a", Value.vMap [("b", Value.vStr "c")])] "a.x" (Value.vStr "dd") =
      Except.ok (Value.vStr "dd") := by
  have h := (get_total_on_map_paths [("a", Value.vMap [("b", Value.vStr "c")])]
    "a.x" (Value.vStr "dd") (by rfl)).1
  rw [h]
  rfl

/-- C3 (code bug evaluation): with system checks passing, a valid
configuration, and no interrupt, a run whose only phase — a required
one — fails still exits with code 0, because `main` discards the result
of `run_all_phases` and falls through to a normal return; the claim
requires exit code 1 on a required-phase failure. -/
theorem main_exit_zero_on_required_phase_failure :
    (runAllPhases [⟨"Prerequisites Check", true, true, ExecOutcome.retFalse⟩] []).1 = false ∧
      mainExitCode false true false
        (runAllPhases [⟨"Prerequisites Check", true, true, ExecOutcome.retFalse⟩] []).1 = 0 :=
  ⟨rfl, rfl⟩

/-- C4: the effective optimization level never exceeds the detected
level nor the requested level; requesting `high` on a `low` system
yields `low`; requesting `low` on a `high` system yields `low` (no
auto-upgrade); and the effective level is written back into the
configuration under the key `optimization_level`. -/
theorem effective_level_monotone (requested detected : Level) (cfg : Config) (dflt : Value) :
    levelRank (adjustLevel requested detected) ≤ levelRank detected ∧
      levelRank (adjustLevel requested detected) ≤ levelRank requested ∧
      adjustLevel Level.high Level.low = Level.low ∧
      adjustLevel Level.low Level.high = Level.low ∧
      ∃ cfg2, (adjust_phases_for_optimization requested detected cfg).2 = some cfg2 ∧
        getConfig cfg2 "optimization_level" dflt =
          Except.ok (Value.vStr (levelStr (adjustLevel requested detected))) := by
  refine ⟨?_, ?_, by decide, by decide, ?_⟩
  · cases requested <;> cases detected <;> decide
  · cases requested <;> cases detected <;> decide
  · refine ⟨insertA cfg "optimization_level"
      (Value.vStr (levelStr (adjustLevel requested detected))), ?_, ?_⟩
    · unfold adjust_phases_for_optimization configSet
      rw [if_neg (by decide : ¬ ("optimization_level".data.contains (Char.ofNat 46) = true))]
    · unfold getConfig
      rw [if_neg (by decide : ¬ ("optimization_level".data.contains (Char.ofNat 46) = true))]
      rw [lookupA_insertA_self]
      rfl

end PQMatrix
